import Mathlib

/-!
Verification of the hit-counter data-access layer (`db.py`).

The three sqlite tables (`url`, `daily_hits`, `user_agents`) are embedded as
lists of row structures kept in insertion order; `AUTOINCREMENT` ids are
modelled by explicit next-id counters.  A `SELECT ... fetchone()` becomes
`head?` of the filtered row list.  Python integers are `Int`, TEXT columns are
`String`.  The module-level configuration (`config.UNKNOWN_AGENT`,
`config.TOP_SITES_IGNORE_DOMAIN_RE_MATCH`) is not part of the source tree, so
it is passed in as an explicit `Config` record.
-/

deriving instance DecidableEq for Except

namespace HitCounter

/-- A row of the `url` table: `id INTEGER PRIMARY KEY AUTOINCREMENT, url TEXT, count INTEGER`. -/
structure UrlRow where
  id : Nat
  url : String
  count : Int
deriving DecidableEq, Repr

/-- A row of the `daily_hits` table: `id, url_id (FK to url), date TEXT, count INTEGER`. -/
structure DailyRow where
  id : Nat
  urlId : Nat
  date : String
  count : Int
deriving DecidableEq, Repr

/-- A row of the `user_agents` table: `id, url_id (FK to url), user_agent TEXT, count INTEGER`. -/
structure AgentRow where
  id : Nat
  urlId : Nat
  agent : String
  count : Int
deriving DecidableEq, Repr

/-- The database state: the three tables in row (insertion) order, together
with the next AUTOINCREMENT id of each table. -/
structure Db where
  urls : List UrlRow
  daily : List DailyRow
  agents : List AgentRow
  nextUrlId : Nat := 1
  nextDailyId : Nat := 1
  nextAgentId : Nat := 1
deriving DecidableEq, Repr

/-- The empty store right after `__init__` created the three tables. -/
def emptyDb : Db := { urls := [], daily := [], agents := [] }

/-- Modelled from the spec: a small regular-expression language standing in for
the patterns of `config.TOP_SITES_IGNORE_DOMAIN_RE_MATCH` (the `config` module
is not part of the source tree). -/
inductive Regex where
  | emp : Regex
  | eps : Regex
  | chr : Char → Regex
  | dot : Regex
  | alt : Regex → Regex → Regex
  | cat : Regex → Regex → Regex
  | star : Regex → Regex
deriving DecidableEq, Repr

/-- Does the regex accept the empty word? -/
def Regex.nullable : Regex → Bool
  | .emp => false
  | .eps => true
  | .chr _ => false
  | .dot => false
  | .alt r₁ r₂ => r₁.nullable || r₂.nullable
  | .cat r₁ r₂ => r₁.nullable && r₂.nullable
  | .star _ => true

/-- Brzozowski derivative of a regex by one character. -/
def Regex.deriv : Regex → Char → Regex
  | .emp, _ => .emp
  | .eps, _ => .emp
  | .chr c, a => if a = c then .eps else .emp
  | .dot, _ => .eps
  | .alt r₁ r₂, a => .alt (r₁.deriv a) (r₂.deriv a)
  | .cat r₁ r₂, a =>
    if r₁.nullable then .alt (.cat (r₁.deriv a) r₂) (r₂.deriv a) else .cat (r₁.deriv a) r₂
  | .star r, a => .cat (r.deriv a) (.star r)

/-- Does the regex accept some initial segment of the character list? -/
def reMatchChars : Regex → List Char → Bool
  | r, [] => r.nullable
  | r, a :: as => r.nullable || reMatchChars (r.deriv a) as

/-- Modelled from the spec: Python's `re.match(regex, s)`, which is anchored at
the start of `s` and succeeds iff the regex matches some initial segment of `s`
(`re` is external to the source tree). -/
def reMatch (r : Regex) (s : String) : Bool := reMatchChars r s.data

/-- Modelled from the spec: the configuration consumed by the layer — the
sentinel agent string `UNKNOWN_AGENT` and the ignore-list patterns
`TOP_SITES_IGNORE_DOMAIN_RE_MATCH` (the `config` module is not in the source
tree). -/
structure Config where
  unknownAgent : String
  ignore : List Regex

/-- The ambient clock: `today` is what SQLite's `date()` evaluates to,
`todayLocal` is `datetime.today().strftime("%y-%m-%d")` on the Python side. -/
structure Env where
  today : String
  todayLocal : String

/-- Errors surfaced by the operations: `invalidDate` is the `ValueError`
raised for an unrecognised `date` argument, `noRow` is the `TypeError` raised
by `fetchone()[0]` when the url-id lookup returns no row. -/
inductive DbErr where
  | invalidDate : DbErr
  | noRow : DbErr
deriving DecidableEq, Repr

/-- A dynamically-typed Python value as returned by `getAgentCount` (the
literal `0` on a miss, the selected TEXT column on a hit). -/
inductive PyVal where
  | int : Int → PyVal
  | str : String → PyVal
deriving DecidableEq, Repr

/-- Embeds the Python comparison `count == 0` on a dynamic value: comparing a
`str` with an `int` is `False` in Python. -/
def pyIsZero : PyVal → Bool
  | .int n => n == 0
  | .str _ => false

/-- The `date` argument of `getDailyCount`: absent (`None`), a
`datetime.datetime` instance, or any other (unrecognised) value. -/
inductive DateArg where
  | absent : DateArg
  | dt : Nat → Nat → Nat → DateArg
  | invalid : DateArg
deriving DecidableEq, Repr

/-- Zero-padded two-digit rendering used by `strftime`. -/
def pad2 (n : Nat) : String := if n < 10 then "0" ++ toString n else toString n

/-- `d.strftime("%y-%m-%d")` for a datetime with the given year/month/day. -/
def strftimeYmd (y m d : Nat) : String :=
  pad2 (y % 100) ++ "-" ++ pad2 m ++ "-" ++ pad2 d

/-- The result set of `SELECT ... FROM url WHERE url=?`: the rows of the
`url` table whose `url` column equals `u`, in table order. -/
def urlRows (db : Db) (u : String) : List UrlRow :=
  db.urls.filter (fun r => r.url == u)

/-- `getCount`: `SELECT count FROM url WHERE url=?`, `fetchone()`; `0` when no
row matches, else the selected `count` column of the first matching row. -/
def getCount (db : Db) (url : String) : Int :=
  match (urlRows db url).head? with
  | none => 0
  | some r => r.count

/-- The result set of the query inside `getDailyCount`:
`SELECT daily_hits.count FROM daily_hits INNER JOIN url ON url.id =
daily_hits.url_id WHERE date=date() AND url=?`.  Note the `WHERE` clause
compares the `date` column with SQLite's current date `date()` (`env.today`),
not with the resolved Python `date` variable. -/
def todayDailyJoin (env : Env) (db : Db) (url : String) : Option Int :=
  ((db.daily.filter (fun dr =>
      dr.date == env.today &&
      db.urls.any (fun ur => ur.id == dr.urlId && ur.url == url))).head?).map
    (fun dr => dr.count)

/-- `getDailyCount`: resolves the `date` argument (raising `ValueError` for an
unrecognised value), then runs the query above — whose filter uses `date()`
(the current date), leaving the resolved `date` string unused. -/
def getDailyCount (env : Env) (db : Db) (url : String) (dateArg : DateArg) :
    Except DbErr Int :=
  match dateArg with
  | .absent =>
    let _resolved := env.todayLocal
    .ok ((todayDailyJoin env db url).getD 0)
  | .dt y m d =>
    let _resolved := strftimeYmd y m d
    .ok ((todayDailyJoin env db url).getD 0)
  | .invalid => .error .invalidDate

/-- `getAgentCount`: normalises a `None` agent to the sentinel, then runs
`SELECT user_agent FROM user_agents INNER JOIN url ON url.id =
user_agents.url_id WHERE user_agent=? AND url=?`, `fetchone()`.  The projected
column is `user_agent`, so a hit returns the agent string, a miss returns `0`. -/
def getAgentCount (cfg : Config) (db : Db) (url : String) (agent : Option String) :
    PyVal :=
  let agent := agent.getD cfg.unknownAgent
  match (db.agents.filter (fun ar =>
      ar.agent == agent &&
      db.urls.any (fun ur => ur.id == ar.urlId && ur.url == url))).head? with
  | none => .int 0
  | some ar => .str ar.agent

/-- `addUrlCount`: reads the current count, inserts `(url, 0)` when it is `0`,
then `UPDATE url SET count = count + 1 WHERE url=?` (bumping every row whose
`url` column matches), and commits. -/
def addUrlCount (db : Db) (url : String) : Db :=
  let count := getCount db url
  let db1 :=
    if count == 0 then
      { db with urls := db.urls ++ [⟨db.nextUrlId, url, 0⟩],
                nextUrlId := db.nextUrlId + 1 }
    else db
  { db1 with urls := db1.urls.map (fun r =>
      if r.url == url then { r with count := r.count + 1 } else r) }

/-- `n` sequential calls of `addUrlCount` for the same url, earliest first. -/
def addUrlCountN : Nat → Db → String → Db
  | 0, db, _ => db
  | n + 1, db, url => addUrlCountN n (addUrlCount db url) url

/-- `addDailyCount`: resolves the url id with `SELECT id FROM url WHERE url=?`,
`fetchone()[0]` (a `TypeError` when there is no row), asks `getDailyCount` for
today's count, inserts `(url_id, date(), 0)` when it is `0`, then
`UPDATE daily_hits SET count = count + 1 WHERE date=date() AND url_id=?`. -/
def addDailyCount (env : Env) (db : Db) (url : String) : Except DbErr Db :=
  match (urlRows db url).head? with
  | none => .error .noRow
  | some urow =>
    let urlId := urow.id
    match getDailyCount env db url DateArg.absent with
    | .error e => .error e
    | .ok count =>
      let db1 :=
        if count == 0 then
          { db with daily := db.daily ++ [⟨db.nextDailyId, urlId, env.today, 0⟩],
                    nextDailyId := db.nextDailyId + 1 }
        else db
      .ok { db1 with daily := db1.daily.map (fun r =>
          if r.date == env.today && r.urlId == urlId then
            { r with count := r.count + 1 }
          else r) }

/-- `addAgentCount`: normalises a `None` agent to the sentinel, resolves the
url id (`fetchone()[0]`, a `TypeError` when there is no row), asks
`getAgentCount` for the current value, inserts `(url_id, agent, 0)` when that
value `== 0`, then `UPDATE user_agents SET count = count + 1 WHERE url_id=?
AND user_agent=?`. -/
def addAgentCount (cfg : Config) (db : Db) (url : String) (agent : Option String) :
    Except DbErr Db :=
  let agent := agent.getD cfg.unknownAgent
  match (urlRows db url).head? with
  | none => .error .noRow
  | some urow =>
    let urlId := urow.id
    let count := getAgentCount cfg db url (some agent)
    let db1 :=
      if pyIsZero count then
        { db with agents := db.agents ++ [⟨db.nextAgentId, urlId, agent, 0⟩],
                  nextAgentId := db.nextAgentId + 1 }
      else db
    .ok { db1 with agents := db1.agents.map (fun r =>
        if r.urlId == urlId && r.agent == agent then
          { r with count := r.count + 1 }
        else r) }

/-- Embeds the guard `if row[0] == b'': continue` of `getTopSites`: the `url`
column is TEXT, so `row[0]` is a Python `str`, and a `str` never equals the
bytes literal `b''` — the comparison is `False` for every url value. -/
def emptyBytesGuard (_url : String) : Bool := false

/-- Python's `s.split(sep)` on character lists (for a single-character
separator). -/
def splitChars (sep : Char) : List Char → List (List Char)
  | [] => [[]]
  | c :: cs =>
    if c = sep then [] :: splitChars sep cs
    else
      match splitChars sep cs with
      | [] => [[c]]
      | h :: t => (c :: h) :: t

/-- `row[0].split('/')[0]`: the first field of the url split on `'/'`. -/
def pyDomain (s : String) : String :=
  String.mk ((splitChars '/' s.data).headD [])

/-- The ignore-list loop of `getTopSites`: `on_ignore` is set iff
`re.match(regex, domain)` succeeds for some configured pattern. -/
def onIgnore (cfg : Config) (domain : String) : Bool :=
  cfg.ignore.any (fun r => reMatch r domain)

/-- `site_counts[domain] += count` on a `defaultdict(int)` kept as an
association list in key-insertion order: add at the existing entry, or append
a fresh entry at the end. -/
def bump : List (String × Int) → String → Int → List (String × Int)
  | [], d, c => [(d, c)]
  | p :: ps, d, c =>
    if p.1 == d then (p.1, p.2 + c) :: ps else p :: bump ps d c

/-- One iteration of the `for row in urls_and_counts` loop of `getTopSites`. -/
def rowStep (cfg : Config) (acc : List (String × Int)) (row : String × Int) :
    List (String × Int) :=
  if emptyBytesGuard row.1 then acc
  else
    let domain := pyDomain row.1
    if onIgnore cfg domain then acc
    else bump acc domain row.2

/-- The `site_counts` dictionary after the loop of `getTopSites`. -/
def siteCounts (cfg : Config) (db : Db) : List (String × Int) :=
  (db.urls.map (fun r => (r.url, r.count))).foldl (rowStep cfg) []

/-- Descending comparison by accumulated count, the key order of
`sorted(site_counts, key=lambda x: site_counts[x], reverse=True)`. -/
def valGe (p q : String × Int) : Prop := q.2 ≤ p.2

instance : DecidableRel valGe := fun p q => inferInstanceAs (Decidable (q.2 ≤ p.2))

instance : IsTotal (String × Int) valGe := ⟨fun p q => le_total q.2 p.2⟩

instance : IsTrans (String × Int) valGe := ⟨fun _ _ _ h₁ h₂ => le_trans h₂ h₁⟩

/-- `sorted_sites`: the entries of `site_counts` stably sorted by descending
count (Python's `sorted` with `reverse=True` is a stable descending sort). -/
def sortedSites (cfg : Config) (db : Db) : List (String × Int) :=
  List.insertionSort valGe (siteCounts cfg db)

/-- The value returned by `getTopSites`. -/
structure TopSites where
  domains : List String
  values : List (String × Int)
deriving DecidableEq, Repr

/-- `getTopSites(amount=10)`: the first `amount` sorted domain names, and the
full (untruncated) per-domain total map. -/
def getTopSites (cfg : Config) (db : Db) (amount : Nat := 10) : TopSites :=
  { domains := ((sortedSites cfg db).map (fun p => p.1)).take amount
    values := siteCounts cfg db }

/-- Dictionary lookup on the association-list rendering of `site_counts`. -/
def lookupVal (m : List (String × Int)) (d : String) : Option Int :=
  (m.find? (fun p => p.1 == d)).map (fun p => p.2)

/-- Spec-side description of the domain: the substring of the url up to but
not including the first `'/'` (the whole string when no `'/'` occurs). -/
def upToFirstSlash (s : String) : String :=
  String.mk (s.data.takeWhile (fun c => c != '/'))

/-- A url row survives the loop of `getTopSites` iff the (never-firing) empty
check keeps it and its domain is not on the ignore list. -/
def keep (cfg : Config) (u : String) : Bool :=
  !emptyBytesGuard u && !onIgnore cfg (pyDomain u)

/-- The total the loop of `getTopSites` accumulates for domain `d` over the
given `(url, count)` rows. -/
def keptSum (cfg : Config) (rows : List (String × Int)) (d : String) : Int :=
  ((rows.filter (fun p => keep cfg p.1 && pyDomain p.1 == d)).map
    (fun p => p.2)).sum

/-! ### Concrete stores used to exercise the operations -/

/-- A clock whose current date (`date()`) is 2020-01-02. -/
def envJan2 : Env := { today := "2020-01-02", todayLocal := "20-01-02" }

/-- One url `"u"` with total 5 and one daily row recorded on 2020-01-01 with
count 5 (no hit recorded on 2020-01-02). -/
def dbDaily : Db :=
  { urls := [⟨1, "u", 5⟩], daily := [⟨1, 1, "2020-01-01", 5⟩], agents := [] }

/-- Configuration with sentinel `"unknown"` and an empty ignore list. -/
def cfgPlain : Config := { unknownAgent := "unknown", ignore := [] }

/-- One url `"u"` and one user-agent row `(u, "bot")` with count 3. -/
def dbAgent : Db :=
  { urls := [⟨1, "u", 3⟩], daily := [], agents := [⟨1, 1, "bot", 3⟩] }

/-- A single url row whose url string is empty, with count 7. -/
def dbEmptyUrl : Db := { urls := [⟨1, "", 7⟩], daily := [], agents := [] }

/-! ### C1 -/

/-- C1: refuted as stated — the code is the slip the spec flags.  The store
has a `DailyHit` row for `("u", 2020-01-01)` with count 5, the current date is
2020-01-02, and `getDailyCount` called with the supplied date 2020-01-01
returns 0: its query filters on `date()` (the current date), never on the
resolved `date` argument, so the recorded count for the requested calendar
date is not returned. -/
theorem getDailyCount_ignores_supplied_date :
    getDailyCount envJan2 dbDaily "u" (DateArg.dt 2020 1 1) = .ok 0 ∧
    (dbDaily.daily.filter (fun r => r.urlId == 1 && r.date == "2020-01-01")).map
      (fun r => r.count) = [5] := by
  constructor
  · decide
  · decide

/-! ### C2 -/

/-- C2: refuted as stated — the query projects the wrong column.  The store
has a `UserAgentHit` row for `("u", "bot")` with count 3, yet
`getAgentCount` returns the agent string `"bot"` (the `SELECT` projects the
`user_agent` column), not the stored integer count 3. -/
theorem getAgentCount_returns_agent_string :
    getAgentCount cfgPlain dbAgent "u" (some "bot") = PyVal.str "bot" ∧
    (dbAgent.agents.filter (fun r => r.urlId == 1 && r.agent == "bot")).map
      (fun r => r.count) = [3] := by
  constructor
  · decide
  · decide

/-! ### C3 -/

/-- C3: refuted as stated — the empty-url skip never fires.  The guard
`row[0] == b''` compares the TEXT url column against a bytes literal, which is
`False` for every string, so a `Url` row with the empty url string is not
skipped: with a single row `("", 7)` the empty string appears as a domain in
both `domains` and `values`. -/
theorem getTopSites_keeps_empty_url :
    (getTopSites cfgPlain dbEmptyUrl 10).domains = [""] ∧
    lookupVal (getTopSites cfgPlain dbEmptyUrl 10).values "" = some 7 := by
  constructor
  · decide
  · decide

/-! ### C8 -/

/-- C8: for every store and url, an unrecognised `date` value makes
`getDailyCount` fail with the invalid-date error, while an absent date or a
`datetime` value never produces that error (the call returns a count). -/
theorem getDailyCount_invalid_date :
    ∀ (env : Env) (db : Db) (url : String),
      getDailyCount env db url DateArg.invalid = .error .invalidDate ∧
      (∃ n, getDailyCount env db url DateArg.absent = .ok n) ∧
      (∀ y m d, ∃ n, getDailyCount env db url (DateArg.dt y m d) = .ok n) := by
  intro env db url
  refine ⟨rfl, ⟨(todayDailyJoin env db url).getD 0, rfl⟩, ?_⟩
  intro y m d
  exact ⟨(todayDailyJoin env db url).getD 0, rfl⟩

/-! ### C10 -/

/-- C10: for every store with no `Url` row for `u`, both `addDailyCount` and
`addAgentCount` fail at the url-id lookup (`fetchone()` returns no row, so
`fetchone()[0]` raises) before any insert or update is executed, so no table
is modified and the missing `Url` row is not created. -/
theorem add_without_url_row_fails (cfg : Config) (env : Env) (db : Db)
    (u : String) (agent : Option String) (h : urlRows db u = []) :
    addDailyCount env db u = .error .noRow ∧
    addAgentCount cfg db u agent = .error .noRow := by
  constructor
  · unfold addDailyCount
    rw [h]
    rfl
  · unfold addAgentCount
    rw [h]
    rfl


/-- Witness for C10 at the empty store. -/
theorem add_without_url_row_fails_witness :
    urlRows emptyDb "u" = [] ∧
    (addDailyCount envJan2 emptyDb "u" = .error .noRow ∧
     addAgentCount cfgPlain emptyDb "u" (some "bot") = .error .noRow) :=
  ⟨by decide,
   add_without_url_row_fails cfgPlain envJan2 emptyDb "u" (some "bot") (by decide)⟩

/-! ### C4 -/

/-- Mapping the `UPDATE`'s row transformer commutes with filtering on the
`url` column, because the transformer never changes that column. -/
lemma filter_url_map_bump (l : List UrlRow) (u v : String) :
    ((l.map (fun r => if r.url == u then { r with count := r.count + 1 } else r)).filter
        (fun r => r.url == v)) =
      (l.filter (fun r => r.url == v)).map
        (fun r => if r.url == u then { r with count := r.count + 1 } else r) := by
  rw [List.filter_map]
  congr 1
  apply List.filter_congr
  intro r _
  by_cases hr : r.url == u <;> simp [Function.comp, hr]

/-- First `addUrlCount` call on a url with no row: a fresh row is inserted
with count 0 and then bumped to 1. -/
lemma urlRows_addUrlCount_fresh (db : Db) (u : String) (h : urlRows db u = []) :
    urlRows (addUrlCount db u) u = [⟨db.nextUrlId, u, 1⟩] := by
  have hget : getCount db u = 0 := by
    unfold getCount
    rw [h]
    rfl
  unfold addUrlCount urlRows
  rw [hget]
  simp only [beq_self_eq_true, if_pos]
  rw [filter_url_map_bump]
  rw [List.filter_append]
  have h' : db.urls.filter (fun r => r.url == u) = [] := h
  rw [h']
  simp

/-- An `addUrlCount` call on a url whose single row has a nonzero count:
no insert happens and the row's count is bumped by one. -/
lemma urlRows_addUrlCount_existing (db : Db) (u : String) (i : Nat) (c : Int)
    (h : urlRows db u = [⟨i, u, c⟩]) (hc : c ≠ 0) :
    urlRows (addUrlCount db u) u = [⟨i, u, c + 1⟩] := by
  have hget : getCount db u = c := by
    unfold getCount
    rw [h]
    rfl
  unfold addUrlCount urlRows
  rw [hget]
  have hc' : (c == 0) = false := by simpa using hc
  simp only [hc', Bool.false_eq_true, if_false]
  rw [filter_url_map_bump]
  have h' : db.urls.filter (fun r => r.url == u) = [⟨i, u, c⟩] := h
  rw [h']
  simp

/-- `n` further calls on a url whose single row holds a positive count add
`n` to that count and never duplicate the row. -/
lemma urlRows_addUrlCountN_existing (u : String) (i : Nat) (n : Nat) :
    ∀ (db : Db) (c : Int), urlRows db u = [⟨i, u, c⟩] → 1 ≤ c →
      urlRows (addUrlCountN n db u) u = [⟨i, u, c + n⟩] := by
  induction n with
  | zero =>
    intro db c h _
    simpa using h
  | succ n ih =>
    intro db c h hc
    have step := urlRows_addUrlCount_existing db u i c h (by omega)
    have rest := ih (addUrlCount db u) (c + 1) step (by omega)
    show urlRows (addUrlCountN n (addUrlCount db u) u) u = _
    rw [rest]
    have : c + 1 + (n : Int) = c + ((n + 1 : Nat) : Int) := by push_cast; ring
    rw [this]

/-- C4: starting from a store with no `Url` row for `u`, a sequence of
`N ≥ 1` sequential `addUrlCount(u)` calls leaves `getCount(u) = N` and exactly
one `Url` row for `u`: the create-if-absent step fires only on the first call
and every call increments the count by exactly 1. -/
theorem addUrlCount_seq (db : Db) (u : String) (N : Nat) (hN : 1 ≤ N)
    (h : urlRows db u = []) :
    getCount (addUrlCountN N db u) u = (N : Int) ∧
    (urlRows (addUrlCountN N db u) u).length = 1 := by
  obtain ⟨n, rfl⟩ : ∃ n, N = n + 1 := ⟨N - 1, by omega⟩
  have h1 := urlRows_addUrlCount_fresh db u h
  have h2 := urlRows_addUrlCountN_existing u db.nextUrlId n (addUrlCount db u) 1 h1
    (by norm_num)
  show getCount (addUrlCountN n (addUrlCount db u) u) u = _ ∧
    (urlRows (addUrlCountN n (addUrlCount db u) u) u).length = 1
  constructor
  · unfold getCount
    rw [h2]
    show (1 : Int) + n = ((n + 1 : Nat) : Int)
    push_cast; ring
  · rw [h2]
    rfl

/-- Witness for C4: three calls on the empty store. -/
theorem addUrlCount_seq_witness :
    (1 ≤ 3 ∧ urlRows emptyDb "u" = []) ∧
    (getCount (addUrlCountN 3 emptyDb "u") "u" = (3 : Int) ∧
     (urlRows (addUrlCountN 3 emptyDb "u") "u").length = 1) :=
  ⟨⟨by decide, by decide⟩, addUrlCount_seq emptyDb "u" 3 (by decide) (by decide)⟩

/-! ### The loop of `getTopSites`: lookup/aggregation lemmas -/

/-- `split` never produces an empty field list. -/
lemma splitChars_ne_nil (sep : Char) (l : List Char) : splitChars sep l ≠ [] := by
  cases l with
  | nil => simp [splitChars]
  | cons c cs =>
    unfold splitChars
    by_cases h : c = sep
    · simp [h]
    · simp only [h, if_false]
      split <;> simp

/-- The first field of `split` is the longest initial segment free of the
separator. -/
lemma splitChars_headD (sep : Char) (l : List Char) :
    (splitChars sep l).headD [] = l.takeWhile (fun c => c != sep) := by
  induction l with
  | nil => rfl
  | cons c cs ih =>
    unfold splitChars
    by_cases h : c = sep
    · simp [h, List.takeWhile_cons]
    · have hne : (c != sep) = true := by simp [h]
      rw [List.takeWhile_cons, hne, if_pos rfl]
      cases hsc : splitChars sep cs with
      | nil => exact absurd hsc (splitChars_ne_nil sep cs)
      | cons hd tl =>
        rw [hsc] at ih
        simp only [List.headD_cons] at ih
        simp [h, hsc, ih]

/-- Looking up the empty dictionary. -/
lemma lookupVal_nil (d : String) : lookupVal [] d = none := rfl

/-- `bump` at key `d` adds `c` to the looked-up value at `d` (0 when absent). -/
lemma lookupVal_bump_self (m : List (String × Int)) (d : String) (c : Int) :
    lookupVal (bump m d c) d = some ((lookupVal m d).getD 0 + c) := by
  induction m with
  | nil => simp [bump, lookupVal]
  | cons p ps ih =>
    by_cases hp : (p.1 == d) = true
    · simp [bump, lookupVal, hp]
    · simp only [bump, hp, Bool.false_eq_true, if_false]
      simp only [lookupVal, List.find?_cons, hp] at ih ⊢
      exact ih

/-- `bump` at key `d` leaves the value at any other key unchanged. -/
lemma lookupVal_bump_other (m : List (String × Int)) (d e : String) (c : Int)
    (h : (e == d) = false) :
    lookupVal (bump m d c) e = lookupVal m e := by
  have hde : (d == e) = false := by
    simp only [beq_eq_false_iff_ne] at h ⊢
    exact fun hx => h hx.symm
  induction m with
  | nil => simp [bump, lookupVal, hde]
  | cons p ps ih =>
    by_cases hp : (p.1 == d) = true
    · have hpd : p.1 = d := by simpa using hp
      have hpe : (p.1 == e) = false := by rw [hpd]; exact hde
      simp [bump, lookupVal, hp, hpe]
    · simp only [bump, hp, Bool.false_eq_true, if_false]
      by_cases hpe : (p.1 == e) = true
      · simp [lookupVal, hpe]
      · simp only [lookupVal, List.find?_cons, hpe] at ih ⊢
        exact ih

/-- Peeling one row off the accumulated per-domain total. -/
lemma keptSum_cons (cfg : Config) (p : String × Int) (rows : List (String × Int))
    (d : String) :
    keptSum cfg (p :: rows) d =
      (if keep cfg p.1 && pyDomain p.1 == d then p.2 else 0) + keptSum cfg rows d := by
  unfold keptSum
  rw [List.filter_cons]
  split <;> simp

/-- The accumulation loop of `getTopSites`, characterised through lookups:
after folding the rows into an accumulator, the value at key `d` is the
accumulator's value (if any) plus the total of the kept rows with domain `d`,
and the key is present iff it was present before or some kept row has that
domain. -/
lemma lookupVal_foldl (cfg : Config) (d : String) :
    ∀ (rows acc : List (String × Int)),
      lookupVal (rows.foldl (rowStep cfg) acc) d =
        match lookupVal acc d with
        | some v => some (v + keptSum cfg rows d)
        | none =>
          if rows.any (fun p => keep cfg p.1 && pyDomain p.1 == d)
          then some (keptSum cfg rows d) else none := by
  intro rows
  induction rows with
  | nil =>
    intro acc
    cases h : lookupVal acc d <;> simp [keptSum, h]
  | cons p rest ih =>
    intro acc
    rw [List.foldl_cons, ih (rowStep cfg acc p), keptSum_cons, List.any_cons]
    by_cases hk : keep cfg p.1 = true
    · have hig : onIgnore cfg (pyDomain p.1) = false := by
        simpa [keep, emptyBytesGuard] using hk
      have hrs : rowStep cfg acc p = bump acc (pyDomain p.1) p.2 := by
        simp [rowStep, emptyBytesGuard, hig]
      by_cases hd : (pyDomain p.1 == d) = true
      · have hdom : pyDomain p.1 = d := by simpa using hd
        rw [hrs, hdom, lookupVal_bump_self]
        cases hacc : lookupVal acc d with
        | none => simp [hk, hd, hdom]
        | some v => simp [hk, hd, hdom, add_assoc]
      · have hd' : (pyDomain p.1 == d) = false := by simpa using hd
        have hne : (d == pyDomain p.1) = false := by
          simp only [beq_eq_false_iff_ne] at hd' ⊢
          exact fun hx => hd' hx.symm
        rw [hrs, lookupVal_bump_other _ _ _ _ hne]
        simp only [hd', Bool.and_false, Bool.false_or]
        cases hacc : lookupVal acc d <;> simp
    · have hk' : keep cfg p.1 = false := by simpa using hk
      have hig : onIgnore cfg (pyDomain p.1) = true := by
        simpa [keep, emptyBytesGuard] using hk'
      have hrs : rowStep cfg acc p = acc := by
        simp [rowStep, emptyBytesGuard, hig]
      rw [hrs]
      simp only [hk', Bool.false_and, Bool.false_or]
      cases hacc : lookupVal acc d <;> simp

/-! ### C5 -/

/-- Two url rows under the same domain `"a.com"`. -/
def dbACom : Db :=
  { urls := [⟨1, "a.com/x", 5⟩, ⟨2, "a.com/y", 3⟩], daily := [], agents := [] }

/-- C5: the domain of each row is the url's initial segment up to (not
including) the first `'/'` (the whole url when it has no `'/'`); the per-domain
map of `getTopSites` carries, at each domain, the sum of the counts of the
kept url rows extracting to that domain; and concretely `"a.com/x"` with count
5 and `"a.com/y"` with count 3 aggregate to `"a.com" ↦ 8`. -/
theorem getTopSites_domain_aggregation :
    (∀ s, pyDomain s = upToFirstSlash s) ∧
    (∀ (cfg : Config) (db : Db) (amount : Nat) (d : String),
      lookupVal (getTopSites cfg db amount).values d =
        (if (db.urls.map (fun r => (r.url, r.count))).any
              (fun p => keep cfg p.1 && pyDomain p.1 == d)
          then some (keptSum cfg (db.urls.map (fun r => (r.url, r.count))) d)
          else none)) ∧
    lookupVal (getTopSites cfgPlain dbACom 10).values "a.com" = some 8 ∧
    (getTopSites cfgPlain dbACom 10).domains = ["a.com"] := by
  refine ⟨?_, ?_, by decide, by decide⟩
  · intro s
    unfold pyDomain upToFirstSlash
    rw [splitChars_headD]
  · intro cfg db amount d
    show lookupVal (siteCounts cfg db) d = _
    unfold siteCounts
    rw [lookupVal_foldl]
    rfl

/-! ### C6 -/

/-- Three url rows under three distinct domains. -/
def dbThree : Db :=
  { urls := [⟨1, "a.com", 5⟩, ⟨2, "b.com", 3⟩, ⟨3, "c.com", 9⟩],
    daily := [], agents := [] }

/-- C6: `values` is the full per-domain map, untruncated; `domains` is the
`amount`-long initial segment of the domains sorted by descending accumulated
total (a sorted permutation of the whole map, so the retained names are the
top ones, and all of them when `amount` exceeds the number of domains); with
`amount = 1` and three distinct domains, `domains` has one entry while
`values` keeps all three. -/
theorem getTopSites_rank_truncation :
    (∀ (cfg : Config) (db : Db) (amount : Nat),
      (getTopSites cfg db amount).values = siteCounts cfg db ∧
      (getTopSites cfg db amount).domains =
        ((sortedSites cfg db).map (fun p => p.1)).take amount ∧
      (sortedSites cfg db).Perm (siteCounts cfg db) ∧
      List.Sorted valGe (sortedSites cfg db) ∧
      (getTopSites cfg db amount).domains.length =
        min amount (siteCounts cfg db).length) ∧
    (getTopSites cfgPlain dbThree 1).domains = ["c.com"] ∧
    ((getTopSites cfgPlain dbThree 1).values.map (fun p => p.1)) =
      ["a.com", "b.com", "c.com"] := by
  refine ⟨?_, by decide, by decide⟩
  intro cfg db amount
  refine ⟨rfl, rfl, List.perm_insertionSort valGe _, List.sorted_insertionSort valGe _, ?_⟩
  show (((sortedSites cfg db).map (fun p => p.1)).take amount).length = _
  rw [List.length_take, List.length_map]
  unfold sortedSites
  rw [(List.perm_insertionSort valGe (siteCounts cfg db)).length_eq]

/-! ### C7 -/

/-- An ignored domain never becomes a key of `site_counts`: every row whose
extracted domain is the ignored one fails the keep check. -/
lemma ignored_lookup_none (cfg : Config) (db : Db) (d : String)
    (h : onIgnore cfg d = true) :
    lookupVal (siteCounts cfg db) d = none := by
  unfold siteCounts
  rw [lookupVal_foldl]
  have hany : ((db.urls.map (fun r => (r.url, r.count))).any
      (fun p => keep cfg p.1 && pyDomain p.1 == d)) = false := by
    rw [List.any_eq_false]
    intro p _
    by_cases hd : (pyDomain p.1 == d) = true
    · have hdom : pyDomain p.1 = d := by simpa using hd
      have : keep cfg p.1 = false := by simp [keep, emptyBytesGuard, hdom, h]
      simp [this]
    · simp [hd]
  simp [lookupVal_nil, hany]

/-- Configuration whose ignore list holds the pattern `b`, matching every
domain that starts with the letter `b`. -/
def cfgIgnoreB : Config := { unknownAgent := "unknown", ignore := [Regex.chr 'b'] }

/-- `"bad.com"` with the highest raw count next to an unignored `"a.com"`. -/
def dbBad : Db :=
  { urls := [⟨1, "bad.com", 100⟩, ⟨2, "a.com", 1⟩], daily := [], agents := [] }

/-- C7: a domain matched (from the start of the string) by some configured
ignore pattern appears neither in `domains` nor in the per-domain map, for
every store and every `amount` — in particular even when that domain has the
highest raw count. -/
theorem getTopSites_excludes_ignored (cfg : Config) (db : Db) (amount : Nat)
    (d : String) (h : cfg.ignore.any (fun r => reMatch r d) = true) :
    d ∉ (getTopSites cfg db amount).domains ∧
    lookupVal (getTopSites cfg db amount).values d = none := by
  have hig : onIgnore cfg d = true := h
  have hnone := ignored_lookup_none cfg db d hig
  refine ⟨?_, hnone⟩
  intro hmem
  have hmem2 : d ∈ (sortedSites cfg db).map (fun p => p.1) :=
    List.take_subset _ _ hmem
  obtain ⟨p, hp, hpd⟩ := List.mem_map.mp hmem2
  have hp2 : p ∈ siteCounts cfg db :=
    (List.perm_insertionSort valGe (siteCounts cfg db)).mem_iff.mp hp
  have hfind : (siteCounts cfg db).find? (fun q => q.1 == d) = none := by
    unfold lookupVal at hnone
    exact Option.map_eq_none.mp hnone
  rw [List.find?_eq_none] at hfind
  exact hfind p hp2 (by simp [hpd])

/-- Witness for C7: the pattern `b` bars `"bad.com"` from the report even
though its count 100 dominates `"a.com"`'s count 1. -/
theorem getTopSites_excludes_ignored_witness :
    cfgIgnoreB.ignore.any (fun r => reMatch r "bad.com") = true ∧
    ("bad.com" ∉ (getTopSites cfgIgnoreB dbBad 10).domains ∧
     lookupVal (getTopSites cfgIgnoreB dbBad 10).values "bad.com" = none) :=
  ⟨by decide, getTopSites_excludes_ignored cfgIgnoreB dbBad 10 "bad.com" (by decide)⟩

/-! ### C9 -/

/-- Mapping a pointwise-identity function is the identity. -/
lemma map_eq_self_of_all {α : Type} (l : List α) (f : α → α) (h : ∀ a ∈ l, f a = a) :
    l.map f = l := by
  induction l with
  | nil => rfl
  | cons a as ih =>
    rw [List.map_cons, h a (by simp), ih (fun b hb => h b (by simp [hb]))]

/-- A filter refined by an extra conjunct stays empty. -/
lemma filter_and_urlId_nil (l : List DailyRow) (i : Nat) (q : DailyRow → Bool)
    (h : l.filter (fun r => r.urlId == i) = []) :
    l.filter (fun r => q r && r.urlId == i) = [] := by
  rw [List.filter_eq_nil_iff] at h ⊢
  intro r hr hqr
  exact h r hr (by
    simp only [Bool.and_eq_true] at hqr
    simp [hqr.2])

/-- When the `url` table holds exactly one row for `u`, the join condition of
the daily-count query reduces to comparing the foreign key with that row's id. -/
lemma urls_any_join (db : Db) (u : String) (i : Nat) (c : Int)
    (hu : urlRows db u = [⟨i, u, c⟩]) (x : Nat) :
    db.urls.any (fun ur => ur.id == x && ur.url == u) = (x == i) := by
  have hmem : (⟨i, u, c⟩ : UrlRow) ∈ db.urls := by
    have h1 : (⟨i, u, c⟩ : UrlRow) ∈ urlRows db u := by rw [hu]; simp
    exact List.mem_of_mem_filter h1
  have huniq : ∀ r ∈ db.urls, r.url = u → r = ⟨i, u, c⟩ := by
    intro r hr hru
    have h2 : r ∈ urlRows db u := by
      unfold urlRows
      rw [List.mem_filter]
      exact ⟨hr, by simp [hru]⟩
    rw [hu] at h2
    simpa using h2
  by_cases hx : x = i
  · subst hx
    have : (x == x) = true := by simp
    rw [this, List.any_eq_true]
    exact ⟨⟨x, u, c⟩, hmem, by simp⟩
  · have hxi : (x == i) = false := by simpa using hx
    rw [hxi, List.any_eq_false]
    intro r hr hcond
    simp only [Bool.and_eq_true, beq_iff_eq] at hcond
    have := huniq r hr hcond.2
    rw [this] at hcond
    exact hx hcond.1.symm

/-- Under a unique url row, the daily-count query's row set is the set of
daily rows with today's date and that row's id as foreign key. -/
lemma daily_join_filter (env : Env) (db : Db) (u : String) (i : Nat) (c : Int)
    (hu : urlRows db u = [⟨i, u, c⟩]) :
    db.daily.filter (fun dr => dr.date == env.today &&
        db.urls.any (fun ur => ur.id == dr.urlId && ur.url == u)) =
      db.daily.filter (fun dr => dr.date == env.today && dr.urlId == i) := by
  apply List.filter_congr
  intro dr _
  rw [urls_any_join db u i c hu dr.urlId]

/-- `addDailyCount` on a day with no existing row for the url: the insert
fires, then the update bumps exactly the fresh row, yielding count 1. -/
lemma addDailyCount_fresh (env : Env) (db : Db) (u : String) (i : Nat) (c : Int)
    (hu : urlRows db u = [⟨i, u, c⟩])
    (hd : db.daily.filter (fun r => r.date == env.today && r.urlId == i) = []) :
    addDailyCount env db u =
      .ok { db with daily := db.daily ++ [⟨db.nextDailyId, i, env.today, 1⟩],
                    nextDailyId := db.nextDailyId + 1 } := by
  have hjoin : todayDailyJoin env db u = none := by
    unfold todayDailyJoin
    rw [daily_join_filter env db u i c hu, hd]
    rfl
  have hcount : getDailyCount env db u DateArg.absent = .ok 0 := by
    simp [getDailyCount, hjoin]
  have hmap : ∀ r ∈ db.daily ++ [(⟨db.nextDailyId, i, env.today, 0⟩ : DailyRow)],
      (if r.date == env.today && r.urlId == i then
        { r with count := r.count + 1 } else r) =
      (if r = ⟨db.nextDailyId, i, env.today, 0⟩ then
        ⟨db.nextDailyId, i, env.today, 1⟩ else r) := by
    intro r hr
    rcases List.mem_append.mp hr with hrl | hrr
    · have : (r.date == env.today && r.urlId == i) = false := by
        rw [List.filter_eq_nil_iff] at hd
        exact Bool.not_eq_true _ ▸ (by simpa using hd r hrl)
      rw [this]
      have hrne : r ≠ ⟨db.nextDailyId, i, env.today, 0⟩ := by
        intro he
        rw [List.filter_eq_nil_iff] at hd
        exact hd r hrl (by rw [he]; simp)
      simp [hrne]
    · have : r = ⟨db.nextDailyId, i, env.today, 0⟩ := by simpa using hrr
      subst this
      simp
  unfold addDailyCount
  rw [hu, List.head?_cons, hcount]
  simp only [beq_self_eq_true, if_pos]
  refine congrArg Except.ok ?_
  refine congrArg (fun l => Db.mk db.urls l db.agents db.nextUrlId
    (db.nextDailyId + 1) db.nextAgentId) ?_
  rw [List.map_congr_left hmap]
  rw [List.map_append]
  rw [map_eq_self_of_all]
  · simp
  · intro r hr
    have hrne : r ≠ ⟨db.nextDailyId, i, env.today, 0⟩ := by
      intro he
      rw [List.filter_eq_nil_iff] at hd
      exact hd r hr (by rw [he]; simp)
    simp [hrne]

/-- `addDailyCount` on a day whose row for the url already holds a nonzero
count: no insert fires and the update bumps exactly that row. -/
lemma addDailyCount_existing (env : Env) (db : Db) (u : String) (i : Nat) (c : Int)
    (D : List DailyRow) (n : Nat) (k : Int)
    (hu : urlRows db u = [⟨i, u, c⟩])
    (hdb : db.daily = D ++ [⟨n, i, env.today, k⟩])
    (hD : D.filter (fun r => r.date == env.today && r.urlId == i) = [])
    (hk : k ≠ 0) :
    addDailyCount env db u =
      .ok { db with daily := D ++ [⟨n, i, env.today, k + 1⟩] } := by
  have hjoin : todayDailyJoin env db u = some k := by
    unfold todayDailyJoin
    rw [daily_join_filter env db u i c hu, hdb, List.filter_append, hD]
    simp
  have hcount : getDailyCount env db u DateArg.absent = .ok k := by
    simp [getDailyCount, hjoin]
  have hk' : (k == 0) = false := by simpa using hk
  unfold addDailyCount
  rw [hu, List.head?_cons, hcount]
  simp only [hk', Bool.false_eq_true, if_false]
  refine congrArg Except.ok ?_
  refine congrArg (fun l => Db.mk db.urls l db.agents db.nextUrlId
    db.nextDailyId db.nextAgentId) ?_
  rw [hdb, List.map_append]
  rw [map_eq_self_of_all]
  · simp
  · intro r hr
    have : (r.date == env.today && r.urlId == i) = false := by
      rw [List.filter_eq_nil_iff] at hD
      exact Bool.not_eq_true _ ▸ (by simpa using hD r hr)
    rw [this]
    rfl

/-- C9: given a unique `Url` row for `u` with no daily rows attached, two
`addDailyCount(u)` calls on the same date leave exactly one `DailyHit` row for
`(u, that date)`, with count 2; one call on each of two distinct dates leaves
two distinct `DailyHit` rows, each with count 1. -/
theorem addDailyCount_same_and_distinct_dates (db : Db) (u : String) (i : Nat)
    (c : Int) (e1 e2 : Env)
    (hu : urlRows db u = [⟨i, u, c⟩])
    (hd : db.daily.filter (fun r => r.urlId == i) = [])
    (hne : e1.today ≠ e2.today) :
    (∃ db1 db2,
      addDailyCount e1 db u = .ok db1 ∧
      addDailyCount e1 db1 u = .ok db2 ∧
      db2.daily.filter (fun r => r.urlId == i && r.date == e1.today) =
        [⟨db.nextDailyId, i, e1.today, 2⟩]) ∧
    (∃ db1 db2,
      addDailyCount e1 db u = .ok db1 ∧
      addDailyCount e2 db1 u = .ok db2 ∧
      db2.daily.filter (fun r => r.urlId == i && r.date == e1.today) =
        [⟨db.nextDailyId, i, e1.today, 1⟩] ∧
      db2.daily.filter (fun r => r.urlId == i && r.date == e2.today) =
        [⟨db.nextDailyId + 1, i, e2.today, 1⟩]) := by
  have hd1 : db.daily.filter (fun r => r.date == e1.today && r.urlId == i) = [] :=
    filter_and_urlId_nil db.daily i _ hd
  have hfirst := addDailyCount_fresh e1 db u i c hu hd1
  set db1 : Db :=
    { db with daily := db.daily ++ [⟨db.nextDailyId, i, e1.today, 1⟩],
              nextDailyId := db.nextDailyId + 1 } with hdb1
  have hu1 : urlRows db1 u = [⟨i, u, c⟩] := hu
  have hdnil : ∀ r ∈ db.daily, (r.urlId == i) = false := by
    rw [List.filter_eq_nil_iff] at hd
    intro r hr
    simpa using hd r hr
  constructor
  · -- same date twice
    have hsecond := addDailyCount_existing e1 db1 u i c db.daily db.nextDailyId 1
      hu1 rfl hd1 (by norm_num)
    refine ⟨db1, _, hfirst, hsecond, ?_⟩
    show (db.daily ++ [(⟨db.nextDailyId, i, e1.today, 2⟩ : DailyRow)]).filter
      (fun r => r.urlId == i && r.date == e1.today) = _
    rw [List.filter_append]
    have h1 : db.daily.filter (fun r => r.urlId == i && r.date == e1.today) = [] := by
      rw [List.filter_eq_nil_iff]
      intro r hr hc
      simp only [Bool.and_eq_true] at hc
      exact absurd hc.1 (by simp [hdnil r hr])
    rw [h1]
    simp
  · -- two distinct dates
    have hd2 : db1.daily.filter (fun r => r.date == e2.today && r.urlId == i) = [] := by
      show (db.daily ++ [(⟨db.nextDailyId, i, e1.today, 1⟩ : DailyRow)]).filter
        (fun r => r.date == e2.today && r.urlId == i) = []
      rw [List.filter_append, filter_and_urlId_nil db.daily i _ hd]
      have : (e1.today == e2.today) = false := by simpa using hne
      simp [this]
    have hsecond := addDailyCount_fresh e2 db1 u i c hu1 hd2
    refine ⟨db1, _, hfirst, hsecond, ?_, ?_⟩
    · show ((db.daily ++ [(⟨db.nextDailyId, i, e1.today, 1⟩ : DailyRow)]) ++
        [(⟨db.nextDailyId + 1, i, e2.today, 1⟩ : DailyRow)]).filter
        (fun r => r.urlId == i && r.date == e1.today) = _
      rw [List.filter_append, List.filter_append]
      have h1 : db.daily.filter (fun r => r.urlId == i && r.date == e1.today) = [] := by
        rw [List.filter_eq_nil_iff]
        intro r hr hc
        simp only [Bool.and_eq_true] at hc
        exact absurd hc.1 (by simp [hdnil r hr])
      rw [h1]
      have hne21 : (e2.today == e1.today) = false := by
        simp only [beq_eq_false_iff_ne]
        exact fun hx => hne hx.symm
      simp [hne21]
    · show ((db.daily ++ [(⟨db.nextDailyId, i, e1.today, 1⟩ : DailyRow)]) ++
        [(⟨db.nextDailyId + 1, i, e2.today, 1⟩ : DailyRow)]).filter
        (fun r => r.urlId == i && r.date == e2.today) = _
      rw [List.filter_append, List.filter_append]
      have h1 : db.daily.filter (fun r => r.urlId == i && r.date == e2.today) = [] := by
        rw [List.filter_eq_nil_iff]
        intro r hr hc
        simp only [Bool.and_eq_true] at hc
        exact absurd hc.1 (by simp [hdnil r hr])
      rw [h1]
      have hne12 : (e1.today == e2.today) = false := by simpa using hne
      simp [hne12]

/-- A second clock, one day after `envJan2`. -/
def envJan3 : Env := { today := "2020-01-03", todayLocal := "20-01-03" }

/-- A store holding exactly the url row `("u", 1)` and no daily rows. -/
def dbJustU : Db := { urls := [⟨1, "u", 1⟩], daily := [], agents := [] }

/-- Witness for C9 at a concrete one-url store and the dates 2020-01-02 and
2020-01-03. -/
theorem addDailyCount_same_and_distinct_dates_witness :
    (urlRows dbJustU "u" = [⟨1, "u", 1⟩] ∧
     dbJustU.daily.filter (fun r => r.urlId == 1) = [] ∧
     envJan2.today ≠ envJan3.today) ∧
    ((∃ db1 db2,
      addDailyCount envJan2 dbJustU "u" = .ok db1 ∧
      addDailyCount envJan2 db1 "u" = .ok db2 ∧
      db2.daily.filter (fun r => r.urlId == 1 && r.date == envJan2.today) =
        [⟨dbJustU.nextDailyId, 1, envJan2.today, 2⟩]) ∧
    (∃ db1 db2,
      addDailyCount envJan2 dbJustU "u" = .ok db1 ∧
      addDailyCount envJan3 db1 "u" = .ok db2 ∧
      db2.daily.filter (fun r => r.urlId == 1 && r.date == envJan2.today) =
        [⟨dbJustU.nextDailyId, 1, envJan2.today, 1⟩] ∧
      db2.daily.filter (fun r => r.urlId == 1 && r.date == envJan3.today) =
        [⟨dbJustU.nextDailyId + 1, 1, envJan3.today, 1⟩])) :=
  ⟨⟨by decide, by decide, by decide⟩,
   addDailyCount_same_and_distinct_dates dbJustU "u" 1 1 envJan2 envJan3
     (by decide) (by decide) (by decide)⟩

end HitCounter
